import Mathlib

/-!
A shallow embedding of the steering-pipeline and action-scheduling core of
the aicore library (src/src/action.cpp, src/src/steerpipe.cpp and the
headers include/aicore/action.h, steerpipe.h, aimath.h, location.h,
primitives.h), together with theorems checking the natural-language
specification of that core against the code.

Modelling conventions:
* The C++ `real` type (a float under SINGLE_PRECISION, precision.h) is
  modelled as the exact rationals `ℚ`.  `real_sqrt` is modelled by
  `ratSqrt`, which agrees with the mathematical square root on every
  rational that is the square of a rational (witnesses only evaluate it
  there); theorems that depend on square roots carry an explicit
  exactness hypothesis.
* Virtual dispatch on `Action` (canInterrupt / canDoBoth / isComplete /
  act, action.h) is modelled by a method table `ActionVT` passed to the
  manager operations; an `Action` value itself carries only the data
  members of the C++ base class (`priority`, plus an identity tag in
  place of its address).
* Owned singly-linked lists (`Action::next`, the manager's queue and
  active lists) are modelled as Lean lists; splicing a node corresponds
  to the evident list surgery.
* The inner `while (inActive != NULL)` loop of
  `ActionManager::addAllToActive` (action.cpp lines 160-167) never
  advances `inActive`, so its C++ source does not terminate whenever the
  loop body neither exits nor jumps.  It is therefore modelled with an
  explicit fuel parameter: `none` means the loop is still running after
  the given number of iterations.  Divergence is expressed as returning
  `none` for every fuel value.
-/

namespace Aicore

/-- Model of `real` (precision.h): exact rationals. -/
abbrev Real := ℚ

/-- `REAL_MAX` = `FLT_MAX` (precision.h, SINGLE_PRECISION), the exact
value `2^128 - 2^104`, written as a numeral. -/
def REAL_MAX : Real := 340282346638528859811704183484516925440

/- ----------------------------------------------------------------- -/
/- Action scheduling (action.h / action.cpp)                          -/
/- ----------------------------------------------------------------- -/

/-- Data members of the C++ `Action` base class (action.h): the
scheduling `priority`; `id` stands in for the object's address so that
distinct action objects are distinguishable values. -/
structure Action where
  id : Nat
  priority : Real
deriving DecidableEq

/-- The virtual methods of `Action` (action.h), modelled as a method
table: `canInterrupt`, the two-argument `canDoBoth`, `isComplete`, and
`act` (which may update the action's own state, hence `Action → Action`;
the default `Action::act` does nothing). -/
structure ActionVT where
  canInterrupt : Action → Bool
  canDoBoth : Action → Action → Bool
  isComplete : Action → Bool
  act : Action → Action

/-- `ActionManager::scheduleAction` (action.cpp lines 72-96): walk the
queue until the new action's priority strictly exceeds the current
entry's, and insert there (so equal priorities go after existing
entries). -/
def scheduleAction (newAction : Action) : List Action → List Action
  | [] => [newAction]
  | x :: xs =>
    if newAction.priority > x.priority then newAction :: x :: xs
    else x :: scheduleAction newAction xs

/-- The fields of `ActionManager` (action.h lines 98-119). -/
structure ManagerState where
  actionQueue : List Action
  active : List Action
  activePriority : Real
deriving DecidableEq

/-- `ActionManager::checkInterrupts` (action.cpp lines 111-151): scan
the queue; stop when priority drops below `activePriority`; at the first
queued action whose `canInterrupt()` is true, drop (delete) the old
active list, make that action the sole active list with
`activePriority` set to its priority, and splice it out of the queue.
Returns the new (queue, active, activePriority). -/
def checkInterrupts (vt : ActionVT) (activePriority : Real)
    (active : List Action) : List Action → List Action × List Action × Real
  | [] => ([], active, activePriority)
  | x :: xs =>
    if x.priority < activePriority then (x :: xs, active, activePriority)
    else if vt.canInterrupt x then (xs, [x], x.priority)
    else
      let r := checkInterrupts vt activePriority active xs
      (x :: r.1, r.2.1, r.2.2)

/-- The inner compatibility loop of `ActionManager::addAllToActive`
(action.cpp lines 159-167).  The C++ loop is
`Action * inActive = active; while (inActive != NULL) { if
(!inActive->canDoBoth(next) || !next->canDoBoth(inActive)) goto
nextInQueue; }` — the body never advances `inActive`, so the same head
element is retested forever.  The model recurses on the unchanged list
and consumes fuel; `some true` = loop exited at NULL (compatible),
`some false` = jumped to `nextInQueue`, `none` = still looping when the
fuel ran out. -/
def innerCheckFuel (vt : ActionVT) (next : Action) :
    List Action → Nat → Option Bool
  | [], _ => some true
  | _ :: _, 0 => none
  | a :: rest, fuel + 1 =>
    if !(vt.canDoBoth a next) || !(vt.canDoBoth next a) then some false
    else innerCheckFuel vt next (a :: rest) fuel

/-- `ActionManager::addAllToActive` (action.cpp lines 153-186): for each
queued action, run the inner compatibility loop against the active list;
on compatibility splice it out of the queue and prepend it to the active
list; otherwise leave it queued.  Returns the new (queue, active), or
`none` if the inner loop ran out of fuel.

On the compatibility branch the C++ runs `*previous = next->next;
next->next = active; active = next; next = next->next;` (lines 170-175):
the final assignment reads the pointer that the second one just rewired,
so the traversal continues at the OLD active head, not at the queue
tail.  The inner loop exits at NULL (`some true`) only when the active
list is empty — a non-empty list either jumps to `nextInQueue` or never
exits — so on every reachable move the old active head is NULL and the
scan ends there, leaving the queue tail `xs` in place (spliced into the
cell `previous` still points at). -/
def addAllToActiveFuel (vt : ActionVT) (fuel : Nat) :
    List Action → List Action → Option (List Action × List Action)
  | [], active => some ([], active)
  | x :: xs, active =>
    match innerCheckFuel vt x active fuel with
    | none => none
    | some true => some (xs, x :: active)
    | some false =>
      match addAllToActiveFuel vt fuel xs active with
      | none => none
      | some r => some (x :: r.1, r.2)

/-- `ActionManager::runActive` (action.cpp lines 188-220): act each
active action, delete it if `isComplete()` afterwards, keep it
otherwise. -/
def runActive (vt : ActionVT) : List Action → List Action
  | [] => []
  | x :: xs =>
    let x2 := vt.act x
    if vt.isComplete x2 then runActive vt xs
    else x2 :: runActive vt xs

/-- `ActionManager::execute` (action.cpp lines 98-109):
`checkInterrupts(); addAllToActive(); runActive();`.  `none` if the
inner loop of `addAllToActive` ran out of fuel.  Note that neither
`addAllToActive` nor `runActive` writes `activePriority`. -/
def executeFuel (vt : ActionVT) (fuel : Nat) (s : ManagerState) :
    Option ManagerState :=
  let r := checkInterrupts vt s.activePriority s.active s.actionQueue
  match addAllToActiveFuel vt fuel r.1 r.2.1 with
  | none => none
  | some q => some ⟨q.1, runActive vt q.2, r.2.2⟩

/- ----------------------------------------------------------------- -/
/- Geometry (aimath.h, location.h, primitives.h, kinematic.h)         -/
/- ----------------------------------------------------------------- -/

/-- Model of `real_sqrt` (precision.h).  For a rational that is the
square of a rational the value is the exact square root (in lowest
terms the numerator and denominator are then perfect squares, on which
`Nat.sqrt` is exact); every theorem whose meaning depends on a square
root carries an explicit exactness hypothesis of the form
`ratSqrt q * ratSqrt q = q`. -/
def ratSqrt (q : Real) : Real :=
  (Nat.sqrt q.num.toNat : ℚ) / (Nat.sqrt q.den : ℚ)

theorem ratSqrt_nonneg (q : Real) : 0 ≤ ratSqrt q := by
  unfold ratSqrt
  positivity

/-- `Vector3` (aimath.h lines 48-365): three `real` components.  The
private `_pad` alignment field has no behaviour and is omitted. -/
structure Vector3 where
  x : Real
  y : Real
  z : Real
deriving DecidableEq

namespace Vector3

/-- `operator+` (aimath.h). -/
def add (v w : Vector3) : Vector3 := ⟨v.x + w.x, v.y + w.y, v.z + w.z⟩

/-- `operator-` (aimath.h). -/
def sub (v w : Vector3) : Vector3 := ⟨v.x - w.x, v.y - w.y, v.z - w.z⟩

/-- `operator*(real)` (aimath.h): scaling. -/
def smul (v : Vector3) (value : Real) : Vector3 :=
  ⟨v.x * value, v.y * value, v.z * value⟩

/-- `operator*(Vector3)` / `scalarProduct` (aimath.h): dot product. -/
def dot (v w : Vector3) : Real := v.x * w.x + v.y * w.y + v.z * w.z

/-- `squareMagnitude` (aimath.h). -/
def squareMagnitude (v : Vector3) : Real := v.x * v.x + v.y * v.y + v.z * v.z

/-- `magnitude` (aimath.h): `real_sqrt(x*x+y*y+z*z)`. -/
def magnitude (v : Vector3) : Real := ratSqrt v.squareMagnitude

/-- `normalise` (aimath.h): scale by `1/magnitude` when the magnitude is
positive, otherwise leave the vector unchanged. -/
def normalise (v : Vector3) : Vector3 :=
  let l := v.magnitude
  if 0 < l then v.smul (1 / l) else v

/-- `unit` (aimath.h): a normalised copy. -/
def unit (v : Vector3) : Vector3 := v.normalise

end Vector3

/-- `SteeringOutput` (location.h lines 39-117): a linear and an angular
component. -/
structure SteeringOutput where
  linear : Vector3
  angular : Real
deriving DecidableEq

/-- The character state consumed by the pipeline (location.h /
kinematic.h): position and orientation from `Location`, plus velocity
and rotation. -/
structure Kinematic where
  position : Vector3
  orientation : Real
  velocity : Vector3
  rotation : Real
deriving DecidableEq

/-- `Sphere` (primitives.h lines 39-50). -/
structure Sphere where
  position : Vector3
  radius : Real
deriving DecidableEq

/- ----------------------------------------------------------------- -/
/- Steering pipeline (steerpipe.h / steerpipe.cpp)                    -/
/- ----------------------------------------------------------------- -/

/-- `Goal` (steerpipe.h lines 36-71): four independently settable
channels.  `Goal()` calls `clear()`, which only clears the four flags;
the unset channel values are modelled as zero (the C++ leaves the
scalar channels uninitialised, and no code reads an unset channel). -/
structure Goal where
  position : Vector3
  positionSet : Bool
  orientation : Real
  orientationSet : Bool
  velocity : Vector3
  velocitySet : Bool
  rotation : Real
  rotationSet : Bool
deriving DecidableEq

namespace Goal

/-- A fresh `Goal()` after its constructor ran `clear()` (steerpipe.cpp
lines 19-27). -/
def empty : Goal := ⟨⟨0, 0, 0⟩, false, 0, false, ⟨0, 0, 0⟩, false, 0, false⟩

/-- `Goal::canMergeGoals` (steerpipe.cpp lines 56-64): true iff no
channel is set by both goals. -/
def canMergeGoals (a goal : Goal) : Bool :=
  !((a.positionSet && goal.positionSet) ||
    (a.orientationSet && goal.orientationSet) ||
    (a.velocitySet && goal.velocitySet) ||
    (a.rotationSet && goal.rotationSet))

/-- `Goal::updateGoal` (steerpipe.cpp lines 29-54): copy in each channel
the other goal has set (the C++ asserts `canMergeGoals` first; the data
flow is modelled unconditionally and the theorems carry the
disjointness as a hypothesis). -/
def updateGoal (a goal : Goal) : Goal :=
  let g1 := if goal.positionSet then
    { a with position := goal.position, positionSet := true } else a
  let g2 := if goal.orientationSet then
    { g1 with orientation := goal.orientation, orientationSet := true } else g1
  let g3 := if goal.velocitySet then
    { g2 with velocity := goal.velocity, velocitySet := true } else g2
  if goal.rotationSet then
    { g3 with rotation := goal.rotation, rotationSet := true } else g3

end Goal

/-- `Path` (steerpipe.h lines 77-89): the basic path links the character
to the goal the path was computed for. -/
structure Path where
  character : Kinematic
  goal : Goal
deriving DecidableEq

/-- `Path::getMaxPriority` (steerpipe.cpp lines 66-69):
`(character->position - goal.position).magnitude()`. -/
def Path.getMaxPriority (path : Path) : Real :=
  (path.character.position.sub path.goal.position).magnitude

/-- A `Constraint` (steerpipe.h lines 133-165), modelled by its two
virtual methods.  The diagnostic flag `suggestionUsed`, which the loop
writes but never reads, is not modelled. -/
structure Constraint where
  willViolate : Path → Real → Real
  suggest : Path → Goal

/-- An `Actuator` (steerpipe.h lines 171-190), modelled by its two
path-related virtual methods.  `createPathObject` is the lazy one-time
allocation of the pipe's path member; the model passes the current path
object to `getSteering` explicitly instead. -/
structure Actuator where
  getPath : Path → Goal → Path
  getSteering : SteeringOutput → Path → SteeringOutput

/-- The configuration of a `SteeringPipe` (steerpipe.h lines 199-248)
for one call of `getSteering`: each registered `Targeter` is modelled by
the `Goal` its `getGoal()` returns, each `Decomposer` by its
`decomposeGoal` function, the optional fallback `SteeringBehaviour` by
its `getSteering` function on the output. -/
structure SteeringPipe where
  targeters : List Goal
  decomposers : List (Goal → Goal)
  constraints : List Constraint
  actuator : Actuator
  fallback : Option (SteeringOutput → SteeringOutput)
  constraintSteps : Nat

/-- One step of the targeter loop of `SteeringPipe::getSteering`
(steerpipe.cpp lines 95-102): merge the targeter's goal in when the
channels are disjoint, otherwise skip it. -/
def targeterMergeStep (goal targeterResult : Goal) : Goal :=
  if goal.canMergeGoals targeterResult then goal.updateGoal targeterResult
  else goal

/-- The targeter phase of `SteeringPipe::getSteering` (steerpipe.cpp
lines 93-102): fold all targeter goals into an initially empty goal. -/
def mergeTargeters (ts : List Goal) : Goal := ts.foldl targeterMergeStep Goal.empty

/-- The decomposer phase of `SteeringPipe::getSteering` (steerpipe.cpp
lines 104-108): apply each decomposer in registration order. -/
def applyDecomposers (ds : List (Goal → Goal)) (goal : Goal) : Goal :=
  ds.foldl (fun g d => d g) goal

/-- The goal entering the negotiation loop: targeter phase then
decomposer phase. -/
def SteeringPipe.loopGoal (pipe : SteeringPipe) : Goal :=
  applyDecomposers pipe.decomposers (mergeTargeters pipe.targeters)

/-- The inner constraint scan of one negotiation iteration
(steerpipe.cpp lines 123-135): keep the smallest violation that is
positive and beats the running shortest, together with the constraint
that produced it. -/
def scanConstraints (path : Path) :
    List Constraint → Real × Option Constraint → Real × Option Constraint
  | [], acc => acc
  | c :: rest, (shortest, viol) =>
    let currentViolation := c.willViolate path shortest
    if 0 < currentViolation ∧ currentViolation < shortest then
      scanConstraints path rest (currentViolation, some c)
    else
      scanConstraints path rest (shortest, viol)

/-- The two ways the negotiation loop of `SteeringPipe::getSteering` can
end: convergence (line 147: use the actuator on the final path) with the
path it converged on, or running out of iterations (line 152). -/
inductive NegotiateResult where
  | converged (path : Path)
  | exhausted

/-- The negotiation loop of `SteeringPipe::getSteering` (steerpipe.cpp
lines 116-150), recursing on the remaining iteration budget: compute the
path for the current goal, take `maxViolation = shortestViolation =
path->getMaxPriority()`, scan the constraints, and either adopt the
violating constraint's suggestion and continue, or converge.  If the
scan reports a violation without a violating constraint — impossible,
since the shortest value only drops below its initial value when a
constraint is recorded; in the C++ this would read an uninitialised
pointer — the goal is kept unchanged. -/
def negotiate (pipe : SteeringPipe) : Nat → Goal → Path → NegotiateResult
  | 0, _, _ => .exhausted
  | n + 1, goal, path0 =>
    let path := pipe.actuator.getPath path0 goal
    let maxViolation := path.getMaxPriority
    let r := scanConstraints path pipe.constraints (maxViolation, none)
    if r.1 < maxViolation then
      match r.2 with
      | some violatingConstraint =>
        negotiate pipe n (violatingConstraint.suggest path) path
      | none => negotiate pipe n goal path
    else .converged path

/-- `SteeringPipe::getSteering` (steerpipe.cpp lines 91-154): targeter
and decomposer phases, then the negotiation loop; on convergence the
actuator produces the output from the final path; on exhaustion the
fallback produces it, and with no fallback the output is returned as it
came in (the C++ simply returns without touching `*output`). -/
def SteeringPipe.getSteering (pipe : SteeringPipe) (path0 : Path)
    (output : SteeringOutput) : SteeringOutput :=
  match negotiate pipe pipe.constraintSteps pipe.loopGoal path0 with
  | .converged path => pipe.actuator.getSteering output path
  | .exhausted =>
    match pipe.fallback with
    | some fb => fb output
    | none => output

/- ----------------------------------------------------------------- -/
/- Reference component implementations (steerpipe.cpp, steering.cpp)  -/
/- ----------------------------------------------------------------- -/

/-- `Seek::getSteering` (steering.cpp lines 17-29): aim from the
character to the target at maximum acceleration; if the offset is zero
it is left as the linear output.  The angular component is not
written. -/
def seekGetSteering (character : Kinematic) (maxAcceleration : Real)
    (target : Vector3) (output : SteeringOutput) : SteeringOutput :=
  let l0 := target.sub character.position
  let l1 := if 0 < l0.squareMagnitude then l0.normalise.smul maxAcceleration
    else l0
  { output with linear := l1 }

/-- `BasicActuator::getPath` (steerpipe.cpp lines 264-268): the path
records the pipe's character and the goal. -/
def basicActuatorGetPath (character : Kinematic) (path : Path)
    (goal : Goal) : Path :=
  { path with character := character, goal := goal }

/-- `BasicActuator::getSteering` (steerpipe.cpp lines 270-283): seek the
goal position if one is set, otherwise clear the output. -/
def basicActuatorGetSteering (character : Kinematic) (maxAcceleration : Real)
    (output : SteeringOutput) (path : Path) : SteeringOutput :=
  if path.goal.positionSet then
    seekGetSteering character maxAcceleration path.goal.position output
  else ⟨⟨0, 0, 0⟩, 0⟩

/-- The `BasicActuator` (steerpipe.h lines 307-319) as an `Actuator`
value for a given pipe character and maximum acceleration. -/
def basicActuator (character : Kinematic) (maxAcceleration : Real) : Actuator :=
  ⟨basicActuatorGetPath character, basicActuatorGetSteering character maxAcceleration⟩

/-- The single-obstacle `AvoidSpheresConstraint::willViolate`
(steerpipe.cpp lines 199-252).  Returns the violation priority and the
constraint's `suggestion` member (updated only on the violating path,
exactly as the C++ writes it). -/
def avoidSpheresWillViolateOne (character : Kinematic) (avoidMargin : Real)
    (path : Path) (maxPriority : Real) (obstacle : Sphere)
    (suggestion : Goal) : Real × Goal :=
  if !path.goal.positionSet then (REAL_MAX, suggestion)
  else
    let direction := path.goal.position.sub character.position
    if 0 < direction.squareMagnitude then
      let movementNormal := direction.unit
      let characterToObstacle := obstacle.position.sub character.position
      let d0 := characterToObstacle.dot movementNormal
      let distanceSquared := characterToObstacle.squareMagnitude - d0 * d0
      let radius := obstacle.radius + avoidMargin
      if distanceSquared < radius * radius then
        let distanceToClosest := characterToObstacle.dot movementNormal
        if 0 < distanceToClosest ∧ distanceToClosest < maxPriority then
          let closestPoint :=
            character.position.add (movementNormal.smul distanceToClosest)
          let sug := { suggestion with
            position := obstacle.position.add
              (((closestPoint.sub obstacle.position).unit).smul
                (obstacle.radius + avoidMargin)),
            positionSet := true }
          (distanceToClosest, sug)
        else (REAL_MAX, suggestion)
      else (REAL_MAX, suggestion)
    else (REAL_MAX, suggestion)

/-- The obstacle loop of the public `AvoidSpheresConstraint::willViolate`
(steerpipe.cpp lines 186-197), threading the running best priority and
the `suggestion` member. -/
def avoidSpheresLoop (character : Kinematic) (avoidMargin : Real)
    (path : Path) : List Sphere → Real × Goal → Real × Goal
  | [], acc => acc
  | obstacle :: rest, (priority, sug) =>
    let r := avoidSpheresWillViolateOne character avoidMargin path priority
      obstacle sug
    if r.1 < priority then avoidSpheresLoop character avoidMargin path rest r
    else avoidSpheresLoop character avoidMargin path rest (priority, r.2)

/-- The public `AvoidSpheresConstraint::willViolate` (steerpipe.cpp
lines 186-197): fold over the obstacles starting from `REAL_MAX`.  Its
`maxPriority` parameter is unused by the C++ (the inner call receives
the running `priority` instead), and is kept here for fidelity. -/
def avoidSpheresWillViolate (character : Kinematic) (avoidMargin : Real)
    (obstacles : List Sphere) (path : Path) (maxPriority : Real)
    (suggestion : Goal) : Real × Goal :=
  avoidSpheresLoop character avoidMargin path obstacles (REAL_MAX, suggestion)

/- ----------------------------------------------------------------- -/
/- Concrete method tables and sample data used by the theorems        -/
/- ----------------------------------------------------------------- -/

/-- A method table under which every pair of actions is mutually
compatible, nothing can interrupt, and nothing completes. -/
def vtMutual : ActionVT := ⟨fun _ => false, fun _ _ => true, fun _ => false, id⟩

/-- A method table with the C++ base-class defaults for `canInterrupt`
and `canDoBoth` (both false, action.cpp lines 48-56), whose actions
never complete and whose `act` does nothing. -/
def vtPlain : ActionVT := ⟨fun _ => false, fun _ _ => false, fun _ => false, id⟩

/-- A sample action of priority 7. -/
def act7 : Action := ⟨0, 7⟩

/- ----------------------------------------------------------------- -/
/- Helper lemmas                                                      -/
/- ----------------------------------------------------------------- -/

/-- The inner loop of `addAllToActive` never terminates when the queued
action is compatible in both directions with the head of a non-empty
active list: the C++ body never advances `inActive`. -/
theorem innerCheckFuel_compatible_head_none (vt : ActionVT) (x a : Action)
    (rest : List Action) (h1 : vt.canDoBoth a x = true)
    (h2 : vt.canDoBoth x a = true) :
    ∀ fuel, innerCheckFuel vt x (a :: rest) fuel = none := by
  intro fuel
  induction fuel with
  | zero => rfl
  | succ n ih => simp [innerCheckFuel, h1, h2, ih]

/-- `scheduleAction` inserts the new action after every entry whose
priority is at least the new action's, and before the rest. -/
theorem scheduleAction_eq_insert (a : Action) (q : List Action) :
    scheduleAction a q =
      q.takeWhile (fun x => decide (a.priority ≤ x.priority)) ++
        a :: q.dropWhile (fun x => decide (a.priority ≤ x.priority)) := by
  induction q with
  | nil => rfl
  | cons x xs ih =>
    by_cases h : x.priority < a.priority
    · have hd : decide (a.priority ≤ x.priority) = false := by
        simp [not_le.mpr h]
      simp [scheduleAction, h, List.takeWhile_cons, List.dropWhile_cons, hd]
    · have hle : a.priority ≤ x.priority := not_lt.mp h
      have hd : decide (a.priority ≤ x.priority) = true := by simp [hle]
      simp [scheduleAction, h, List.takeWhile_cons, List.dropWhile_cons, hd, ih]

/-- Membership in the queue after `scheduleAction`. -/
theorem mem_scheduleAction (a y : Action) (q : List Action) :
    y ∈ scheduleAction a q ↔ y = a ∨ y ∈ q := by
  rw [scheduleAction_eq_insert]
  constructor
  · intro h
    rcases List.mem_append.mp h with h | h
    · exact Or.inr (by
        have := List.takeWhile_append_dropWhile
          (p := fun x => decide (a.priority ≤ x.priority)) (l := q)
        rw [← this]
        exact List.mem_append.mpr (Or.inl h))
    · rcases List.mem_cons.mp h with h | h
      · exact Or.inl h
      · exact Or.inr (by
          have := List.takeWhile_append_dropWhile
            (p := fun x => decide (a.priority ≤ x.priority)) (l := q)
          rw [← this]
          exact List.mem_append.mpr (Or.inr h))
  · intro h
    rcases h with rfl | h
    · exact List.mem_append.mpr (Or.inr (List.mem_cons_self _ _))
    · have := List.takeWhile_append_dropWhile
        (p := fun x => decide (a.priority ≤ x.priority)) (l := q)
      rw [← this] at h
      rcases List.mem_append.mp h with h | h
      · exact List.mem_append.mpr (Or.inl h)
      · exact List.mem_append.mpr (Or.inr (List.mem_cons_of_mem _ h))

/-- `scheduleAction` preserves descending-priority sortedness. -/
theorem scheduleAction_pairwise (a : Action) (q : List Action)
    (h : q.Pairwise (fun x y => y.priority ≤ x.priority)) :
    (scheduleAction a q).Pairwise (fun x y => y.priority ≤ x.priority) := by
  induction q with
  | nil => simp [scheduleAction]
  | cons x xs ih =>
    rcases List.pairwise_cons.mp h with ⟨hx, hxs⟩
    by_cases hpr : x.priority < a.priority
    · have : scheduleAction a (x :: xs) = a :: x :: xs := by
        simp [scheduleAction, hpr]
      rw [this]
      refine List.pairwise_cons.mpr ⟨?_, h⟩
      intro y hy
      rcases List.mem_cons.mp hy with rfl | hy
      · exact le_of_lt hpr
      · exact le_trans (hx y hy) (le_of_lt hpr)
    · have : scheduleAction a (x :: xs) = x :: scheduleAction a xs := by
        simp [scheduleAction, hpr]
      rw [this]
      refine List.pairwise_cons.mpr ⟨?_, ih hxs⟩
      intro y hy
      rcases (mem_scheduleAction a y xs).mp hy with rfl | hy
      · exact not_lt.mp hpr
      · exact hx y hy

/- ----------------------------------------------------------------- -/
/- Claim theorems: action scheduling                                  -/
/- ----------------------------------------------------------------- -/

/-- C7: `scheduleAction` keeps `actionQueue` sorted by descending
priority, places the new action after all entries of priority at least
its own (stable FIFO among equal priorities), and scheduling priorities
5, 10, 3 in that order into an empty manager yields queue order
[10, 5, 3]. -/
theorem scheduleAction_sorted_spec :
    (∀ (a : Action) (q : List Action),
      q.Pairwise (fun x y => y.priority ≤ x.priority) →
      (scheduleAction a q).Pairwise (fun x y => y.priority ≤ x.priority)) ∧
    (∀ (a : Action) (q : List Action),
      scheduleAction a q =
        q.takeWhile (fun x => decide (a.priority ≤ x.priority)) ++
          a :: q.dropWhile (fun x => decide (a.priority ≤ x.priority))) ∧
    scheduleAction ⟨2, 3⟩ (scheduleAction ⟨1, 10⟩ (scheduleAction ⟨0, 5⟩ [])) =
      [⟨1, 10⟩, ⟨0, 5⟩, ⟨2, 3⟩] :=
  ⟨scheduleAction_pairwise, scheduleAction_eq_insert, by decide⟩

/-- C7 witness: applying the sortedness part at the concrete queue
[10, 5] with new priority 3. -/
theorem scheduleAction_sorted_spec_witness :
    (scheduleAction ⟨2, 3⟩ [⟨1, 10⟩, ⟨0, 5⟩]).Pairwise
      (fun x y => y.priority ≤ x.priority) :=
  scheduleAction_sorted_spec.1 ⟨2, 3⟩ [⟨1, 10⟩, ⟨0, 5⟩] (by decide)

/-- C1: refuted — `ActionManager::addAllToActive` does not terminate
when a queued action is compatible in both directions with a member of a
non-empty active set, because the inner `while (inActive != NULL)` loop
(action.cpp lines 160-167) never advances `inActive`: under the
all-compatible method table, with queue `[⟨0, 5⟩]` and active
`[⟨1, 10⟩]`, the loop is still running after any number of
iterations. -/
theorem addAllToActive_diverges_on_compatible (fuel : Nat) :
    addAllToActiveFuel vtMutual fuel [⟨0, 5⟩] [⟨1, 10⟩] = none := by
  simp [addAllToActiveFuel,
    innerCheckFuel_compatible_head_none vtMutual ⟨0, 5⟩ ⟨1, 10⟩ [] rfl rfl fuel]

/-- C2: refuted — for two queued actions that are compatible in both
directions and an empty active set, `execute()` does not move both into
the active set.  It moves the first (empty active set, vacuous inner
loop), but then `next = next->next` (action.cpp line 175) reads the
pointer just rewired to the old active head — NULL — so the scan ends
at once: the second action stays queued and `execute()` returns with
only the first action active, whatever the inner-loop fuel. -/
theorem execute_merges_only_first_of_compatible_pair :
    vtMutual.canDoBoth ⟨0, 1⟩ ⟨1, 1⟩ = true ∧
    vtMutual.canDoBoth ⟨1, 1⟩ ⟨0, 1⟩ = true ∧
    ∀ fuel, executeFuel vtMutual fuel ⟨[⟨0, 1⟩, ⟨1, 1⟩], [], 0⟩ =
      some ⟨[⟨1, 1⟩], [⟨0, 1⟩], 0⟩ := by
  refine ⟨rfl, rfl, fun fuel => ?_⟩
  have h1 : innerCheckFuel vtMutual ⟨0, 1⟩ [] fuel = some true := by
    cases fuel <;> rfl
  have hchk : checkInterrupts vtMutual 0 [] [⟨0, 1⟩, ⟨1, 1⟩] =
      ([⟨0, 1⟩, ⟨1, 1⟩], [], 0) := by decide
  have hadd : addAllToActiveFuel vtMutual fuel [⟨0, 1⟩, ⟨1, 1⟩] [] =
      some ([⟨1, 1⟩], [⟨0, 1⟩]) := by
    simp [addAllToActiveFuel, h1]
  have hrun : runActive vtMutual [⟨0, 1⟩] = [⟨0, 1⟩] := by decide
  simp [executeFuel, hchk, hadd, hrun]

/-- C3: refuted — `addAllToActive` moves actions into the active set
without updating `activePriority`: a fresh manager (activePriority 0)
given a single queued action of priority 7 (which cannot interrupt and
never completes) ends `execute()` with active set `[act7]` but
`activePriority` still 0, contradicting the documented invariant
(action.h lines 101-105). -/
theorem activePriority_stale_after_addAllToActive :
    executeFuel vtPlain 1 ⟨[act7], [], 0⟩ = some ⟨[], [act7], 0⟩ ∧
    act7.priority = 7 ∧ (7 : Real) ≠ 0 := by decide

/-- C4: priority preemption.  With action `a` of priority 5 the sole
active action (activePriority 5), action `b` of priority 10 queued,
neither action completing and `act` leaving both unchanged: if `b` can
interrupt, `execute()` destroys `a`, makes `b` the sole active action
and sets `activePriority` to 10; if `b` cannot interrupt and the two are
not `canDoBoth`-compatible, `a` stays active, `b` stays queued and
`activePriority` stays 5. -/
theorem execute_priority_preemption (vt : ActionVT) (a b : Action)
    (fuel : Nat)
    (ha : a.priority = 5) (hb : b.priority = 10)
    (hacta : vt.act a = a) (hactb : vt.act b = b)
    (hca : vt.isComplete a = false) (hcb : vt.isComplete b = false)
    (hfuel : 0 < fuel) :
    (vt.canInterrupt b = true →
      executeFuel vt fuel ⟨[b], [a], 5⟩ = some ⟨[], [b], 10⟩) ∧
    (vt.canInterrupt b = false →
      (vt.canDoBoth a b = false ∨ vt.canDoBoth b a = false) →
      executeFuel vt fuel ⟨[b], [a], 5⟩ = some ⟨[b], [a], 5⟩) := by
  obtain ⟨f, rfl⟩ : ∃ f, fuel = f + 1 :=
    ⟨fuel - 1, (Nat.succ_pred_eq_of_pos hfuel).symm⟩
  constructor
  · intro hIb
    simp [executeFuel, checkInterrupts, hb, hIb, addAllToActiveFuel,
      runActive, hactb, hcb]
    norm_num
  · intro hIb hcdb
    have hinner : innerCheckFuel vt b [a] (f + 1) = some false := by
      rcases hcdb with h | h <;> simp [innerCheckFuel, h]
    simp [executeFuel, checkInterrupts, hb, hIb, addAllToActiveFuel, hinner,
      runActive, hacta, hca]

/-- C4 witness: both branches applied at a concrete method table and
concrete actions of priorities 5 and 10. -/
theorem execute_priority_preemption_witness :
    executeFuel ⟨fun x => decide (x.priority = 10), fun _ _ => false,
        fun _ => false, id⟩ 1 ⟨[⟨1, 10⟩], [⟨0, 5⟩], 5⟩ =
      some ⟨[], [⟨1, 10⟩], 10⟩ ∧
    executeFuel vtPlain 1 ⟨[⟨1, 10⟩], [⟨0, 5⟩], 5⟩ =
      some ⟨[⟨1, 10⟩], [⟨0, 5⟩], 5⟩ :=
  ⟨(execute_priority_preemption
      ⟨fun x => decide (x.priority = 10), fun _ _ => false, fun _ => false, id⟩
      ⟨0, 5⟩ ⟨1, 10⟩ 1 rfl rfl rfl rfl rfl rfl (by decide)).1 (by decide),
   (execute_priority_preemption vtPlain ⟨0, 5⟩ ⟨1, 10⟩ 1 rfl rfl rfl rfl rfl
      rfl (by decide)).2 rfl (Or.inl rfl)⟩

/- ----------------------------------------------------------------- -/
/- Claim theorems: goal merging                                       -/
/- ----------------------------------------------------------------- -/

/-- No channel is set by both goals. -/
def channelsDisjoint (a b : Goal) : Prop :=
  (a.positionSet && b.positionSet) = false ∧
  (a.orientationSet && b.orientationSet) = false ∧
  (a.velocitySet && b.velocitySet) = false ∧
  (a.rotationSet && b.rotationSet) = false

instance (a b : Goal) : Decidable (channelsDisjoint a b) := by
  unfold channelsDisjoint
  infer_instance

/-- C6: goal merge is channel-disjoint union.  For channel-disjoint
goals, `canMergeGoals` is true and `updateGoal` sets exactly the union
of the set channels, each carrying the value of whichever goal set it;
if some channel is set by both, `canMergeGoals` is false; and the
targeter phase of the pipeline skips a targeter result that cannot be
merged, leaving the accumulated goal unchanged. -/
theorem goal_merge_channel_disjoint_union :
    (∀ a b : Goal, channelsDisjoint a b →
      a.canMergeGoals b = true ∧
      (a.updateGoal b).positionSet = (a.positionSet || b.positionSet) ∧
      (a.updateGoal b).orientationSet = (a.orientationSet || b.orientationSet) ∧
      (a.updateGoal b).velocitySet = (a.velocitySet || b.velocitySet) ∧
      (a.updateGoal b).rotationSet = (a.rotationSet || b.rotationSet) ∧
      (b.positionSet = true → (a.updateGoal b).position = b.position) ∧
      (a.positionSet = true → (a.updateGoal b).position = a.position) ∧
      (b.orientationSet = true → (a.updateGoal b).orientation = b.orientation) ∧
      (a.orientationSet = true → (a.updateGoal b).orientation = a.orientation) ∧
      (b.velocitySet = true → (a.updateGoal b).velocity = b.velocity) ∧
      (a.velocitySet = true → (a.updateGoal b).velocity = a.velocity) ∧
      (b.rotationSet = true → (a.updateGoal b).rotation = b.rotation) ∧
      (a.rotationSet = true → (a.updateGoal b).rotation = a.rotation)) ∧
    (∀ a b : Goal, ¬channelsDisjoint a b → a.canMergeGoals b = false) ∧
    (∀ g t : Goal, g.canMergeGoals t = false → targeterMergeStep g t = g) := by
  refine ⟨?_, ?_, ?_⟩
  · intro a b hd
    obtain ⟨h1, h2, h3, h4⟩ := hd
    refine ⟨by simp [Goal.canMergeGoals, h1, h2, h3, h4], ?_⟩
    cases hbp : b.positionSet <;> cases hbo : b.orientationSet <;>
      cases hbv : b.velocitySet <;> cases hbr : b.rotationSet <;>
      simp_all [Goal.updateGoal]
  · intro a b h
    simp only [channelsDisjoint, not_and_or] at h
    rcases h with h | h | h | h <;>
      simp_all [Goal.canMergeGoals]
  · intro g t h
    simp [targeterMergeStep, h]

/-- C6 witness: a position-only goal and a velocity-only goal merge into
a goal with exactly those two channels and their respective values. -/
theorem goal_merge_channel_disjoint_union_witness :
    ({ Goal.empty with position := ⟨1, 2, 3⟩, positionSet := true } : Goal
      ).canMergeGoals { Goal.empty with velocity := ⟨4, 5, 6⟩, velocitySet := true }
      = true ∧
    (({ Goal.empty with position := ⟨1, 2, 3⟩, positionSet := true } : Goal
      ).updateGoal { Goal.empty with velocity := ⟨4, 5, 6⟩, velocitySet := true }
      ).velocity = ⟨4, 5, 6⟩ := by
  have h := goal_merge_channel_disjoint_union.1
    { Goal.empty with position := ⟨1, 2, 3⟩, positionSet := true }
    { Goal.empty with velocity := ⟨4, 5, 6⟩, velocitySet := true }
    (by decide)
  exact ⟨h.1, h.2.2.2.2.2.2.2.2.2.1 rfl⟩

/- ----------------------------------------------------------------- -/
/- Claim theorems: pipeline negotiation loop                          -/
/- ----------------------------------------------------------------- -/

/-- The constraint scan over a single constraint. -/
theorem scanConstraints_single (path : Path) (c : Constraint)
    (shortest0 : Real) :
    scanConstraints path [c] (shortest0, none) =
      if 0 < c.willViolate path shortest0 ∧
          c.willViolate path shortest0 < shortest0 then
        (c.willViolate path shortest0, some c)
      else (shortest0, none) := by
  by_cases h : 0 < c.willViolate path shortest0 ∧
      c.willViolate path shortest0 < shortest0 <;>
    simp [scanConstraints, h]

/-- With a single constraint that, on every path the actuator can
produce, reports a positive violation strictly below that path's
`getMaxPriority`, the negotiation loop never converges: every iteration
finds a violation and adopts the constraint's suggestion, so any
iteration budget is exhausted. -/
theorem negotiate_exhausted_of_always_violating (pipe : SteeringPipe)
    (c : Constraint) (hc : pipe.constraints = [c])
    (hviol : ∀ (p : Path) (g : Goal),
      0 < c.willViolate (pipe.actuator.getPath p g)
          (pipe.actuator.getPath p g).getMaxPriority ∧
      c.willViolate (pipe.actuator.getPath p g)
          (pipe.actuator.getPath p g).getMaxPriority <
        (pipe.actuator.getPath p g).getMaxPriority) :
    ∀ (n : Nat) (g : Goal) (p : Path), negotiate pipe n g p = .exhausted := by
  intro n
  induction n with
  | zero => intro g p; rfl
  | succ n ih =>
    intro g p
    have h := hviol p g
    simp only [negotiate, hc, scanConstraints_single, if_pos h]
    rw [if_pos h.2]
    exact ih _ _

/-- C5: bounded negotiation with fallback.  For a pipe with a single
constraint that always reports a positive violation strictly below the
current path's `getMaxPriority`, and a configured fallback, the
negotiation loop runs all `constraintSteps` iterations without
converging and `getSteering` produces the fallback's output. -/
theorem getSteering_exhausts_and_falls_back (pipe : SteeringPipe)
    (c : Constraint) (fb : SteeringOutput → SteeringOutput)
    (path0 : Path) (output : SteeringOutput)
    (hc : pipe.constraints = [c])
    (hfb : pipe.fallback = some fb)
    (hviol : ∀ (p : Path) (g : Goal),
      0 < c.willViolate (pipe.actuator.getPath p g)
          (pipe.actuator.getPath p g).getMaxPriority ∧
      c.willViolate (pipe.actuator.getPath p g)
          (pipe.actuator.getPath p g).getMaxPriority <
        (pipe.actuator.getPath p g).getMaxPriority) :
    negotiate pipe pipe.constraintSteps pipe.loopGoal path0 = .exhausted ∧
    pipe.getSteering path0 output = fb output := by
  have h := negotiate_exhausted_of_always_violating pipe c hc hviol
  exact ⟨h _ _ _, by simp [SteeringPipe.getSteering, h, hfb]⟩

/-- C10: exhausted negotiation with no fallback leaves the output
untouched.  Same pathological constraint, but `fallback` null: the call
returns with the output exactly as it was passed in. -/
theorem getSteering_exhausted_no_fallback_output_untouched
    (pipe : SteeringPipe) (c : Constraint) (path0 : Path)
    (output : SteeringOutput)
    (hc : pipe.constraints = [c])
    (hfb : pipe.fallback = none)
    (hviol : ∀ (p : Path) (g : Goal),
      0 < c.willViolate (pipe.actuator.getPath p g)
          (pipe.actuator.getPath p g).getMaxPriority ∧
      c.willViolate (pipe.actuator.getPath p g)
          (pipe.actuator.getPath p g).getMaxPriority <
        (pipe.actuator.getPath p g).getMaxPriority) :
    pipe.getSteering path0 output = output := by
  have h := negotiate_exhausted_of_always_violating pipe c hc hviol
  simp [SteeringPipe.getSteering, h, hfb]

/-- C8: with zero constraints the loop converges on its first iteration
(whatever positive the budget is): the scan leaves the shortest
violation equal to `maxViolation`, so the no-violation branch runs the
actuator's `getSteering` once on the path computed for the
targeter-supplied, decomposed goal, and the fallback is never
reached. -/
theorem getSteering_zero_constraints_converges (pipe : SteeringPipe)
    (path0 : Path) (output : SteeringOutput) (n : Nat)
    (hc : pipe.constraints = [])
    (hsteps : pipe.constraintSteps = n + 1) :
    negotiate pipe pipe.constraintSteps pipe.loopGoal path0 =
      .converged (pipe.actuator.getPath path0 pipe.loopGoal) ∧
    pipe.getSteering path0 output =
      pipe.actuator.getSteering output
        (pipe.actuator.getPath path0 pipe.loopGoal) := by
  have h1 : negotiate pipe pipe.constraintSteps pipe.loopGoal path0 =
      .converged (pipe.actuator.getPath path0 pipe.loopGoal) := by
    rw [hsteps]
    simp [negotiate, hc, scanConstraints]
  exact ⟨h1, by simp [SteeringPipe.getSteering, h1]⟩

/- Concrete pipeline instances for the witnesses. -/

/-- `ratSqrt` is exact on squares of naturals. -/
theorem ratSqrt_natCast_sq (a : ℕ) :
    ratSqrt ((a : ℚ) * (a : ℚ)) = (a : ℚ) := by
  have h : ((a : ℚ) * (a : ℚ)) = ((a * a : ℕ) : ℚ) := by push_cast; ring
  rw [h]
  unfold ratSqrt
  simp only [Rat.num_natCast, Rat.den_natCast, Int.toNat_natCast,
    Nat.sqrt_eq, Nat.sqrt_one, Nat.cast_one, div_one]

/-- A character resting at the origin. -/
def wChar : Kinematic := ⟨⟨0, 0, 0⟩, 0, ⟨0, 0, 0⟩, 0⟩

/-- A goal asking only for position (10, 0, 0). -/
def wGoal : Goal :=
  { Goal.empty with position := ⟨10, 0, 0⟩, positionSet := true }

/-- The path from the origin character to `wGoal`; its `getMaxPriority`
is 10. -/
def wPath : Path := ⟨wChar, wGoal⟩

/-- An actuator whose paths are always `wPath` and whose steering leaves
the output unchanged. -/
def wConstActuator : Actuator := ⟨fun _ _ => wPath, fun o _ => o⟩

/-- A pathological constraint: every path is violated at priority 1. -/
def wStuckConstraint : Constraint := ⟨fun _ _ => 1, fun _ => Goal.empty⟩

/-- A constant fallback behaviour. -/
def wFallback : SteeringOutput → SteeringOutput := fun _ => ⟨⟨1, 2, 3⟩, 4⟩

/-- A pipe that can never satisfy its constraint, with a fallback. -/
def wStuckPipe : SteeringPipe :=
  ⟨[], [], [wStuckConstraint], wConstActuator, some wFallback, 100⟩

/-- A pipe that can never satisfy its constraint, with no fallback. -/
def wStuckPipeNoFallback : SteeringPipe :=
  ⟨[], [], [wStuckConstraint], wConstActuator, none, 100⟩

/-- `wPath` is 10 units long. -/
theorem wPath_getMaxPriority : wPath.getMaxPriority = 10 := by
  have h : (wPath.character.position.sub wPath.goal.position).squareMagnitude =
      ((10 : ℕ) : ℚ) * ((10 : ℕ) : ℚ) := by
    norm_num [wPath, wChar, wGoal, Goal.empty, Vector3.sub,
      Vector3.squareMagnitude]
  unfold Path.getMaxPriority Vector3.magnitude
  rw [h, ratSqrt_natCast_sq]
  norm_num

/-- Every path of `wConstActuator` satisfies the pathological-violation
hypothesis: the violation 1 is positive and below `wPath`'s
`getMaxPriority` of 10. -/
theorem wStuck_always_violating : ∀ (p : Path) (g : Goal),
    0 < wStuckConstraint.willViolate (wConstActuator.getPath p g)
        (wConstActuator.getPath p g).getMaxPriority ∧
    wStuckConstraint.willViolate (wConstActuator.getPath p g)
        (wConstActuator.getPath p g).getMaxPriority <
      (wConstActuator.getPath p g).getMaxPriority :=
  fun _ _ =>
    ⟨by norm_num [wStuckConstraint],
     show (1 : Real) < wPath.getMaxPriority by
       rw [wPath_getMaxPriority]; norm_num⟩

/-- C5 witness: the stuck pipe exhausts its 100 iterations and returns
the fallback output. -/
theorem getSteering_exhausts_and_falls_back_witness :
    negotiate wStuckPipe wStuckPipe.constraintSteps wStuckPipe.loopGoal wPath =
      .exhausted ∧
    wStuckPipe.getSteering wPath ⟨⟨0, 0, 0⟩, 0⟩ = wFallback ⟨⟨0, 0, 0⟩, 0⟩ :=
  getSteering_exhausts_and_falls_back wStuckPipe wStuckConstraint wFallback
    wPath ⟨⟨0, 0, 0⟩, 0⟩ rfl rfl wStuck_always_violating

/-- C10 witness: the fallback-less stuck pipe returns the entry value of
the output unchanged. -/
theorem getSteering_exhausted_no_fallback_witness :
    wStuckPipeNoFallback.getSteering wPath ⟨⟨5, 6, 7⟩, 8⟩ = ⟨⟨5, 6, 7⟩, 8⟩ :=
  getSteering_exhausted_no_fallback_output_untouched wStuckPipeNoFallback
    wStuckConstraint wPath ⟨⟨5, 6, 7⟩, 8⟩ rfl rfl wStuck_always_violating

/-- A basic-actuator pipe with one fixed-goal targeter and no
constraints. -/
def wFreePipe : SteeringPipe :=
  ⟨[wGoal], [], [], basicActuator wChar 10, none, 100⟩

/-- C8 witness: the constraint-free pipe converges immediately and
produces the basic actuator's output for the targeter's goal. -/
theorem getSteering_zero_constraints_converges_witness :
    negotiate wFreePipe wFreePipe.constraintSteps wFreePipe.loopGoal wPath =
      .converged (wFreePipe.actuator.getPath wPath wFreePipe.loopGoal) ∧
    wFreePipe.getSteering wPath ⟨⟨0, 0, 0⟩, 0⟩ =
      wFreePipe.actuator.getSteering ⟨⟨0, 0, 0⟩, 0⟩
        (wFreePipe.actuator.getPath wPath wFreePipe.loopGoal) :=
  getSteering_zero_constraints_converges wFreePipe wPath ⟨⟨0, 0, 0⟩, 0⟩ 99
    rfl rfl

/- ----------------------------------------------------------------- -/
/- Claim theorems: sphere-avoidance constraint                        -/
/- ----------------------------------------------------------------- -/

theorem Vector3.dot_self_eq (v : Vector3) : v.dot v = v.squareMagnitude := by
  simp [Vector3.dot, Vector3.squareMagnitude]

theorem Vector3.smul_dot (v w : Vector3) (c : Real) :
    (v.smul c).dot w = c * v.dot w := by
  simp [Vector3.smul, Vector3.dot]
  ring

theorem Vector3.smul_squareMagnitude (v : Vector3) (c : Real) :
    (v.smul c).squareMagnitude = c * c * v.squareMagnitude := by
  simp [Vector3.smul, Vector3.squareMagnitude]
  ring

/-- When `ratSqrt` is exact on a positive rational, it is positive. -/
theorem ratSqrt_pos_of_exact (q : Real) (hq : 0 < q)
    (hexact : ratSqrt q * ratSqrt q = q) : 0 < ratSqrt q := by
  rcases lt_or_eq_of_le (ratSqrt_nonneg q) with h | h
  · exact h
  · exfalso
    rw [← hexact, ← h] at hq
    simp at hq

/-- A unit vector built from an exact square root has dot product 1 with
itself. -/
theorem unit_dot_self_of_exact (v : Vector3) (hpos : 0 < v.squareMagnitude)
    (hexact : ratSqrt v.squareMagnitude * ratSqrt v.squareMagnitude =
      v.squareMagnitude) :
    v.unit.dot v.unit = 1 := by
  have hL : 0 < v.magnitude := ratSqrt_pos_of_exact _ hpos hexact
  have hLne : v.magnitude ≠ 0 := ne_of_gt hL
  unfold Vector3.unit Vector3.normalise
  rw [if_pos hL, Vector3.smul_dot]
  have h2 : v.dot (v.smul (1 / v.magnitude)) = (1 / v.magnitude) * v.dot v := by
    simp [Vector3.smul, Vector3.dot]
    ring
  rw [h2, Vector3.dot_self_eq, ← hexact]
  show (1 / ratSqrt v.squareMagnitude) *
    ((1 / ratSqrt v.squareMagnitude) *
      (ratSqrt v.squareMagnitude * ratSqrt v.squareMagnitude)) = 1
  have : ratSqrt v.squareMagnitude ≠ 0 := hLne
  field_simp

/-- The public `willViolate` over a single obstacle reduces to the
single-obstacle check called with `REAL_MAX` as its bound. -/
theorem avoidSpheres_single_obstacle (character : Kinematic)
    (avoidMargin : Real) (path : Path) (mp : Real) (o : Sphere)
    (sug0 : Goal) :
    (avoidSpheresWillViolate character avoidMargin [o] path mp sug0).1 =
      if (avoidSpheresWillViolateOne character avoidMargin path REAL_MAX o
          sug0).1 < REAL_MAX then
        (avoidSpheresWillViolateOne character avoidMargin path REAL_MAX o
          sug0).1
      else REAL_MAX := by
  by_cases h : (avoidSpheresWillViolateOne character avoidMargin path REAL_MAX
      o sug0).1 < REAL_MAX <;>
    simp [avoidSpheresWillViolate, avoidSpheresLoop, h]

/-- C9: sphere-avoidance violation value.  Under an exact square root
for the movement direction: a single obstacle lying on the straight
line from the character toward the set position goal, ahead of the
character at distance `t` below the look-ahead bound, makes
`willViolate` return `t` — the distance from the character to the point
of closest approach; if instead the straight line stays at least
`radius + avoidMargin` away from the obstacle centre, or the closest
approach is behind the character, it returns `REAL_MAX`. -/
theorem avoidSpheres_willViolate_value (character : Kinematic)
    (avoidMargin : Real) (path : Path) (o : Sphere) (sug0 : Goal) (mp : Real)
    (mn c2o : Vector3) (dtc dsq radius : Real)
    (hset : path.goal.positionSet = true)
    (hdirpos : 0 < (path.goal.position.sub character.position).squareMagnitude)
    (hexact :
      ratSqrt (path.goal.position.sub character.position).squareMagnitude *
        ratSqrt (path.goal.position.sub character.position).squareMagnitude =
        (path.goal.position.sub character.position).squareMagnitude)
    (hmn : mn = (path.goal.position.sub character.position).unit)
    (hc2o : c2o = o.position.sub character.position)
    (hdtc : dtc = c2o.dot mn)
    (hdsq : dsq = c2o.squareMagnitude - dtc * dtc)
    (hrad : radius = o.radius + avoidMargin) :
    (∀ t : Real, 0 < t → t < REAL_MAX → c2o = mn.smul t → 0 < radius →
      (avoidSpheresWillViolate character avoidMargin [o] path mp sug0).1 = t) ∧
    (radius * radius ≤ dsq →
      (avoidSpheresWillViolate character avoidMargin [o] path mp sug0).1 =
        REAL_MAX) ∧
    (dtc ≤ 0 →
      (avoidSpheresWillViolate character avoidMargin [o] path mp sug0).1 =
        REAL_MAX) := by
  subst hmn hc2o hdtc hdsq hrad
  have hmm1 : (path.goal.position.sub character.position).unit.dot
      (path.goal.position.sub character.position).unit = 1 :=
    unit_dot_self_of_exact _ hdirpos hexact
  have hmmsq : (path.goal.position.sub character.position).unit.squareMagnitude
      = 1 := by rw [← Vector3.dot_self_eq]; exact hmm1
  refine ⟨?_, ?_, ?_⟩
  · intro t ht hmax hline hrad
    have hone : (avoidSpheresWillViolateOne character avoidMargin path
        REAL_MAX o sug0).1 = t := by
      simp only [avoidSpheresWillViolateOne, hset, Bool.not_true,
        Bool.false_eq_true, if_false, if_pos hdirpos, hline]
      rw [Vector3.smul_dot, hmm1, Vector3.smul_squareMagnitude, hmmsq]
      simp only [mul_one, sub_self]
      rw [if_pos (mul_pos hrad hrad), if_pos ⟨ht, hmax⟩]
    rw [avoidSpheres_single_obstacle, hone, if_pos hmax]
  · intro h2
    have hone : (avoidSpheresWillViolateOne character avoidMargin path
        REAL_MAX o sug0).1 = REAL_MAX := by
      simp only [avoidSpheresWillViolateOne, hset, Bool.not_true,
        Bool.false_eq_true, if_false, if_pos hdirpos]
      rw [if_neg (not_lt.mpr h2)]
    rw [avoidSpheres_single_obstacle, hone, if_neg (lt_irrefl REAL_MAX)]
  · intro h3
    have hone : (avoidSpheresWillViolateOne character avoidMargin path
        REAL_MAX o sug0).1 = REAL_MAX := by
      simp only [avoidSpheresWillViolateOne, hset, Bool.not_true,
        Bool.false_eq_true, if_false, if_pos hdirpos]
      by_cases hd : (o.position.sub character.position).squareMagnitude -
          (o.position.sub character.position).dot
            (path.goal.position.sub character.position).unit *
          (o.position.sub character.position).dot
            (path.goal.position.sub character.position).unit <
          (o.radius + avoidMargin) * (o.radius + avoidMargin)
      · rw [if_pos hd, if_neg (fun hcon => absurd hcon.1 (not_lt.mpr h3))]
      · rw [if_neg hd]
    rw [avoidSpheres_single_obstacle, hone, if_neg (lt_irrefl REAL_MAX)]

/-- `ratSqrt` evaluates exactly at 100. -/
theorem ratSqrt_hundred : ratSqrt 100 = 10 := by
  have h : (100 : ℚ) = ((10 : ℕ) : ℚ) * ((10 : ℕ) : ℚ) := by norm_num
  rw [h, ratSqrt_natCast_sq]
  norm_num

/-- The movement direction of `wPath` from `wChar`. -/
theorem wDirection_eq : wPath.goal.position.sub wChar.position = ⟨10, 0, 0⟩ := by
  norm_num [wPath, wGoal, wChar, Goal.empty, Vector3.sub, Vector3.mk.injEq]

theorem wDirection_sqMag :
    (wPath.goal.position.sub wChar.position).squareMagnitude = 100 := by
  rw [wDirection_eq]
  norm_num [Vector3.squareMagnitude]

theorem wUnit_eq : (wPath.goal.position.sub wChar.position).unit = ⟨1, 0, 0⟩ := by
  rw [wDirection_eq]
  have hm : (⟨10, 0, 0⟩ : Vector3).magnitude = 10 := by
    unfold Vector3.magnitude
    have h : (⟨10, 0, 0⟩ : Vector3).squareMagnitude = 100 := by
      norm_num [Vector3.squareMagnitude]
    rw [h, ratSqrt_hundred]
  simp only [Vector3.unit, Vector3.normalise, hm]
  norm_num [Vector3.smul, Vector3.mk.injEq]

/-- C9 witness: character at the origin heading for (10,0,0).  A unit
sphere at (4,0,0) with margin 1/2 sits on the line 4 units ahead, and
`willViolate` returns 4; a unit sphere at (4,30,0) is 30 units off the
line and `willViolate` returns `REAL_MAX`. -/
theorem avoidSpheres_willViolate_value_witness :
    (avoidSpheresWillViolate wChar (1 / 2) [⟨⟨4, 0, 0⟩, 1⟩] wPath REAL_MAX
      Goal.empty).1 = 4 ∧
    (avoidSpheresWillViolate wChar (1 / 2) [⟨⟨4, 30, 0⟩, 1⟩] wPath REAL_MAX
      Goal.empty).1 = REAL_MAX := by
  constructor
  · exact (avoidSpheres_willViolate_value wChar (1 / 2) wPath ⟨⟨4, 0, 0⟩, 1⟩
      Goal.empty REAL_MAX ⟨1, 0, 0⟩ ⟨4, 0, 0⟩ 4 0 (3 / 2)
      rfl
      (by rw [wDirection_sqMag]; norm_num)
      (by rw [wDirection_sqMag, ratSqrt_hundred]; norm_num)
      wUnit_eq.symm
      (by norm_num [wChar, Vector3.sub, Vector3.mk.injEq])
      (by norm_num [Vector3.dot])
      (by norm_num [Vector3.squareMagnitude])
      (by norm_num)).1 4
      (by norm_num)
      (by norm_num [REAL_MAX])
      (by norm_num [Vector3.smul, Vector3.mk.injEq])
      (by norm_num)
  · exact (avoidSpheres_willViolate_value wChar (1 / 2) wPath ⟨⟨4, 30, 0⟩, 1⟩
      Goal.empty REAL_MAX ⟨1, 0, 0⟩ ⟨4, 30, 0⟩ 4 900 (3 / 2)
      rfl
      (by rw [wDirection_sqMag]; norm_num)
      (by rw [wDirection_sqMag, ratSqrt_hundred]; norm_num)
      wUnit_eq.symm
      (by norm_num [wChar, Vector3.sub, Vector3.mk.injEq])
      (by norm_num [Vector3.dot])
      (by norm_num [Vector3.squareMagnitude])
      (by norm_num)).2.1
      (by norm_num)

end Aicore
